import Mathlib

/-
Verification of the cargo task orchestration pipeline of
src/components/cargo/cargo_manager.ts (class CargoTaskManager).

The pure argument construction (runCargoWithCwd lines 347-359) and the
invokeCargoCheckWithArgs decision (lines 228-242) are embedded directly as
functions.  The stateful orchestration (runCargo, runCargoWithCwd handlers,
stopTask, checkCargoCheckAvailability, invokeCargoNew/invokeCargoInit) is
embedded as an executable event-step semantics: each event corresponds to one
synchronous JavaScript callback execution, and the environment (the child
process, the user) chooses which enabled event fires next.
-/

namespace CargoManager

/-- The command verbs for which runCargoWithCwd injects the JSON output flags
(the switch at cargo_manager.ts lines 348-356). -/
def jsonOutputVerbs : List String := ["build", "check", "clippy", "test", "run"]

/-- The full process argument vector built by runCargoWithCwd (lines 347-359):
for the verbs in jsonOutputVerbs the flags "--message-format" "json" are
prepended to the caller args, and afterwards the command verb is prepended to
the whole vector. -/
def buildFinalArgs (command : String) (args : List String) : List String :=
  let args1 := if command ∈ jsonOutputVerbs then "--message-format" :: "json" :: args else args
  command :: args1

/-- The decision taken by invokeCargoCheckWithArgs (lines 228-242) after the
availability probe finished with the given exit code: exit code 0 means
cargo check is available, so verb "check" with the caller args unchanged;
any other exit code selects verb "rustc" with "--" and "-Zno-trans" appended
to the caller args. -/
def invokeCargoCheckCommandAndArgs (exitCode : Int) (args : List String) : String × List String :=
  if exitCode = 0 then ("check", args) else ("rustc", args ++ ["--", "-Zno-trans"])

/-- The user-facing message shown when a task fails with error message
"ENOENT" (line 417). -/
def cargoNotAvailableMsg : String :=
  "The \"cargo\" command is not available. Make sure it is installed."

/-- Which code path created a task: slot tasks go through
runCargo/runCargoWithCwd and occupy the currentTask slot; probe tasks are the
ephemeral checkCargoCheckAvailability tasks; scaffold tasks are the
invokeCargoNew/invokeCargoInit tasks.  All three call the same Task class. -/
inductive TaskKind
  | slot
  | probe
  | scaffold
deriving DecidableEq, Repr

/-- Modelled from the spec: the lifecycle of a Task (task.ts is not under
src/; spec section 4.1 ProcessRunner).  A task is created, emits a started
event once the process is live, and terminates exactly once, either
gracefully with an exit code or with a start failure / interruption. -/
inductive TaskStatus
  | created
  | running
  | terminated
deriving DecidableEq, Repr

/-- Modelled from the spec: one Task object (task.ts is not under src/).
The orchestrator-relevant attributes: which code path created it, its
lifecycle status, whether kill() was requested on it, and its full argument
vector. -/
structure TaskRec where
  kind : TaskKind
  status : TaskStatus
  killRequested : Bool
  args : List String
deriving DecidableEq, Repr

/-- The observable actions of one event-step: process spawns, kill requests,
publisher clears (tagged with the id of the slot task created by the same
synchronous run start), parser feeds, diagnostic publications, output channel
writes, user-facing messages and the status bar (busy indicator). -/
inductive Obs
  | spawned (t : Nat) (args : List String)
  | killRequested (t : Nat)
  | clearedFor (t : Nat)
  | parserFed (t : Nat) (line : String)
  | publishedDiag (t : Nat) (diag : String)
  | channelAppend (text : String)
  | channelCleared
  | errorMessage (msg : String)
  | infoMessage (msg : String)
  | busyOn
  | busyOff
deriving DecidableEq, Repr

/-- The state of the CargoTaskManager together with the tasks it created and
the DiagnosticPublisher's published set.  tasks maps a task id to the task
object (ids are allocated by nextId); currentTask is the manager's
currentTask slot (line 151); gen is the id of the slot task created by the
most recent clearDiagnostics, so published entries are tagged with the id of
the task whose line produced them; pendingForce holds a forced runCargo
request that is awaiting the kill of the previous task (lines 317-322);
diagnosticPublishingEnabled is the runtime toggle (lines 177-179).
The published set is modelled from the spec in so far as
diagnostic_publisher.ts is not under src/: clear empties it, publish appends
(spec section 4.4). -/
structure MState where
  tasks : Nat → Option TaskRec
  nextId : Nat
  currentTask : Option Nat
  gen : Option Nat
  published : List (Nat × String)
  pendingForce : Option (String × List String × Nat)
  diagnosticPublishingEnabled : Bool

/-- The initial manager state (constructor, lines 157-175). -/
def initState : MState :=
  { tasks := fun _ => none
    nextId := 0
    currentTask := none
    gen := none
    published := []
    pendingForce := none
    diagnosticPublishingEnabled := true }

/-- The test line.startsWith (cargo_manager.ts line 373) for the one-char
prefix consisting of the JSON object delimiter: the line begins with the
character of code 123.  Written as a first-character test so that it
evaluates by kernel reduction. -/
def startsWithJsonBrace (line : String) : Bool :=
  match line.data with
  | [] => false
  | c :: _ => c.toNat == 123

/-- Update the task with the given id. -/
def updateTask (tasks : Nat → Option TaskRec) (t : Nat) (f : TaskRec → TaskRec) :
    Nat → Option TaskRec :=
  fun i => if i = t then (tasks t).map f else tasks i

/-- The synchronous body of runCargoWithCwd (lines 340-390, 420): clear the
published diagnostics, build the full argument vector, create the task, store
it in the currentTask slot, show the busy indicator and start the process. -/
def startSlotRun (s : MState) (command : String) (args : List String) : MState × List Obs :=
  let finalArgs := buildFinalArgs command args
  let t := s.nextId
  ({ s with
      tasks := fun i => if i = t then some ⟨TaskKind.slot, TaskStatus.created, false, finalArgs⟩
               else s.tasks i
      nextId := t + 1
      currentTask := some t
      gen := some t
      published := [] },
   [Obs.clearedFor t, Obs.busyOn, Obs.spawned t finalArgs])

/-- The events driving the orchestrator: client calls (runCargo, stopTask,
setDiagnosticPublishingEnabled, the probe and scaffold invocations) and
environment callbacks (started, stdout/stderr lines, graceful exit, failure,
and the resolution of an awaited kill).  cwdRes is the outcome of the
synchronous currentWorkingDirectoryManager.cwd() call made at that point
(Except.error carries the thrown error message). -/
inductive Ev
  | runCargo (command : String) (args : List String) (force : Bool) (cwdRes : Except String String)
  | killCompleted (cwdRes : Except String String)
  | started (t : Nat)
  | stdoutLine (t : Nat) (line : String)
  | stderrLine (t : Nat) (line : String)
  | exited (t : Nat) (code : Int)
  | failed (t : Nat) (err : Option String)
  | probeStart
  | probeEnd (t : Nat) (code : Int)
  | scaffoldStart (args : List String)
  | scaffoldEnd (t : Nat)
  | setDiagnosticPublishingEnabled (b : Bool)
  | stopTask
deriving Repr

/-- runCargo (lines 316-338).  With a task in the slot: force requests a kill
of the current task and records the pending re-issue (the awaited recursion
of lines 318-322; overlapping forced restarts are not modelled, hence the
pendingForce guard), without force the call is a plain return (line 324).
With an empty slot: resolve cwd; on failure report the error and return
(lines 329-335); on success run runCargoWithCwd. -/
def stepRunCargo (s : MState) (command : String) (args : List String) (force : Bool)
    (cwdRes : Except String String) : Option (MState × List Obs) :=
  match s.currentTask with
  | some t =>
    if force then
      if s.pendingForce = none then
        match s.tasks t with
        | some r =>
          if r.status = TaskStatus.terminated then none
          else some ({ s with
                        tasks := updateTask s.tasks t (fun q => { q with killRequested := true })
                        pendingForce := some (command, args, t) },
                     [Obs.killRequested t])
        | none => none
      else none
    else some (s, [])
  | none =>
    if s.pendingForce = none then
      match cwdRes with
      | Except.error m => some (s, [Obs.errorMessage m])
      | Except.ok _ => some (startSlotRun s command args)
    else none

/-- The resumption of a pending forced runCargo once the awaited kill
completed (lines 318-322): enabled only after the killed task terminated and
its terminal callback emptied the slot; re-runs runCargo, which now takes the
empty-slot branch. -/
def stepKillCompleted (s : MState) (cwdRes : Except String String) :
    Option (MState × List Obs) :=
  match s.pendingForce with
  | some (command, args, tk) =>
    match s.tasks tk with
    | some r =>
      if r.status = TaskStatus.terminated then
        if s.currentTask = none then
          match cwdRes with
          | Except.error m => some ({ s with pendingForce := none }, [Obs.errorMessage m])
          | Except.ok _ => some (startSlotRun { s with pendingForce := none } command args)
        else none
      else none
    | none => none
  | none => none

/-- The started callback (lines 365-370 for slot tasks; the probe and
scaffold tasks install no started handler). -/
def stepStarted (s : MState) (t : Nat) : Option (MState × List Obs) :=
  match s.tasks t with
  | some r =>
    if r.status = TaskStatus.created then
      some ({ s with tasks := updateTask s.tasks t (fun q => { q with status := TaskStatus.running }) },
            if r.kind = TaskKind.slot then
              [Obs.channelCleared,
               Obs.channelAppend (("Started cargo " ++ String.intercalate (" ") r.args) ++ "\n")]
            else [])
    else none
  | none => none

/-- The stdout line callback.  For a slot task (lines 372-384): a line
starting with the JSON object delimiter is fed to the parser and each parsed
diagnostic is published when publishing is enabled; any other line is
appended to the output channel.  Scaffold tasks append every line to the
channel (lines 209-211, 271-273); the probe installs no line handler.
A line can only arrive while its task is running (modelled from the spec:
the ProcessRunner of section 4.1 delivers all lines before termination). -/
def stepStdoutLine (parse : String → List String) (s : MState) (t : Nat) (line : String) :
    Option (MState × List Obs) :=
  match s.tasks t with
  | some r =>
    if r.status = TaskStatus.running then
      match r.kind with
      | TaskKind.slot =>
        if startsWithJsonBrace line then
          if s.diagnosticPublishingEnabled then
            some ({ s with published := s.published ++ (parse line).map (fun d => (t, d)) },
                  Obs.parserFed t line :: (parse line).map (fun d => Obs.publishedDiag t d))
          else some (s, [Obs.parserFed t line])
        else some (s, [Obs.channelAppend (line ++ "\n")])
      | TaskKind.probe => some (s, [])
      | TaskKind.scaffold => some (s, [Obs.channelAppend (line ++ "\n")])
    else none
  | none => none

/-- The stderr line callback: slot tasks (lines 386-388) and scaffold tasks
append the line to the channel; the probe installs no handler. -/
def stepStderrLine (s : MState) (t : Nat) (line : String) : Option (MState × List Obs) :=
  match s.tasks t with
  | some r =>
    if r.status = TaskStatus.running then
      match r.kind with
      | TaskKind.slot => some (s, [Obs.channelAppend (line ++ "\n")])
      | TaskKind.probe => some (s, [])
      | TaskKind.scaffold => some (s, [Obs.channelAppend (line ++ "\n")])
    else none
  | none => none

/-- onGracefullyEnded for a slot task (lines 392-401): hide the busy
indicator, empty the slot, report the exit code on the channel (the
elapsed-seconds line, which depends on wall-clock time, is not tracked). -/
def stepExited (s : MState) (t : Nat) (code : Int) : Option (MState × List Obs) :=
  match s.tasks t with
  | some r =>
    if r.kind = TaskKind.slot then
      if r.status = TaskStatus.running then
        if s.currentTask = some t then
          some ({ s with
                    tasks := updateTask s.tasks t (fun q => { q with status := TaskStatus.terminated })
                    currentTask := none },
                [Obs.busyOff, Obs.channelAppend (("Completed with code " ++ toString code) ++ "\n")])
        else none
      else none
    else none
  | none => none

/-- onUnexpectedlyEnded for a slot task (lines 403-418): hide the busy
indicator, empty the slot; no error means the task was interrupted and
nothing more happens; an error whose message is exactly "ENOENT" shows the
tool-not-installed message; any other error is swallowed. -/
def stepFailed (s : MState) (t : Nat) (err : Option String) : Option (MState × List Obs) :=
  match s.tasks t with
  | some r =>
    if r.kind = TaskKind.slot then
      if r.status = TaskStatus.terminated then none
      else
        if s.currentTask = some t then
          some ({ s with
                    tasks := updateTask s.tasks t (fun q => { q with status := TaskStatus.terminated })
                    currentTask := none },
                Obs.busyOff ::
                  (if err = some ("ENOENT") then [Obs.infoMessage cargoNotAvailableMsg] else []))
        else none
    else none
  | none => none

/-- checkCargoCheckAvailability (lines 308-314) creates and starts its own
ephemeral task with arguments check --help; it never touches the currentTask
slot or the published set. -/
def stepProbeStart (s : MState) : Option (MState × List Obs) :=
  let t := s.nextId
  some ({ s with
            tasks := fun i => if i = t then
                       some ⟨TaskKind.probe, TaskStatus.created, false, ["check", "--help"]⟩
                     else s.tasks i
            nextId := t + 1 },
        [Obs.spawned t ["check", "--help"]])

/-- The probe task finishing: its exit code is consumed by
invokeCargoCheckCommandAndArgs; the manager state is untouched apart from the
task becoming terminated. -/
def stepProbeEnd (s : MState) (t : Nat) : Option (MState × List Obs) :=
  match s.tasks t with
  | some r =>
    if r.kind = TaskKind.probe then
      if r.status = TaskStatus.running then
        some ({ s with tasks := updateTask s.tasks t (fun q => { q with status := TaskStatus.terminated }) },
              [])
      else none
    else none
  | none => none

/-- invokeCargoNew / invokeCargoInit (lines 181-218, 256-280): clear the
channel and run an ephemeral task outside the currentTask slot. -/
def stepScaffoldStart (s : MState) (args : List String) : Option (MState × List Obs) :=
  let t := s.nextId
  some ({ s with
            tasks := fun i => if i = t then
                       some ⟨TaskKind.scaffold, TaskStatus.created, false, args⟩
                     else s.tasks i
            nextId := t + 1 },
        [Obs.channelCleared, Obs.spawned t args])

/-- A scaffold task finishing. -/
def stepScaffoldEnd (s : MState) (t : Nat) : Option (MState × List Obs) :=
  match s.tasks t with
  | some r =>
    if r.kind = TaskKind.scaffold then
      if r.status = TaskStatus.running then
        some ({ s with tasks := updateTask s.tasks t (fun q => { q with status := TaskStatus.terminated }) },
              [])
      else none
    else none
  | none => none

/-- setDiagnosticPublishingEnabled (lines 177-179). -/
def stepSetPublishing (s : MState) (b : Bool) : Option (MState × List Obs) :=
  some ({ s with diagnosticPublishingEnabled := b }, [])

/-- stopTask (lines 302-306): kill the current task when there is one,
otherwise do nothing. -/
def stepStopTask (s : MState) : Option (MState × List Obs) :=
  match s.currentTask with
  | some t =>
    some ({ s with tasks := updateTask s.tasks t (fun q => { q with killRequested := true }) },
          [Obs.killRequested t])
  | none => some (s, [])

/-- One atomic event-step of the orchestrator.  parse is the
DiagnosticParser.parseLine collaborator (diagnostic_parser.ts is not under
src/, so it is kept abstract): it returns the diagnostics of one line.
The result is none when the event is not enabled in the given state. -/
def step (parse : String → List String) (s : MState) : Ev → Option (MState × List Obs)
  | Ev.runCargo command args force cwdRes => stepRunCargo s command args force cwdRes
  | Ev.killCompleted cwdRes => stepKillCompleted s cwdRes
  | Ev.started t => stepStarted s t
  | Ev.stdoutLine t line => stepStdoutLine parse s t line
  | Ev.stderrLine t line => stepStderrLine s t line
  | Ev.exited t code => stepExited s t code
  | Ev.failed t err => stepFailed s t err
  | Ev.probeStart => stepProbeStart s
  | Ev.probeEnd t _ => stepProbeEnd s t
  | Ev.scaffoldStart args => stepScaffoldStart s args
  | Ev.scaffoldEnd t => stepScaffoldEnd s t
  | Ev.setDiagnosticPublishingEnabled b => stepSetPublishing s b
  | Ev.stopTask => stepStopTask s

/-- Run a whole event trace, collecting the observations in order. -/
def execTrace (parse : String → List String) : MState → List Ev → Option (MState × List Obs)
  | s, [] => some (s, [])
  | s, e :: evs =>
    match step parse s e with
    | some (s1, o1) =>
      match execTrace parse s1 evs with
      | some (s2, o2) => some (s2, o1 ++ o2)
      | none => none
    | none => none

/-- The observation sequence of a trace started in the initial state. -/
def execObs (parse : String → List String) (evs : List Ev) : Option (List Obs) :=
  (execTrace parse initState evs).map (fun p => p.2)

/-- A state is reachable when some valid event trace leads to it from the
initial state. -/
def Reachable (parse : String → List String) (s : MState) : Prop :=
  ∃ evs obs, execTrace parse initState evs = some (s, obs)

/-- The parse collaborator used for concrete evaluations: each JSON line
yields itself as its single diagnostic. -/
def idParse : String → List String := fun line => [line]

/-- The orchestrator invariant: every live (non-terminated) slot task is the
one referenced by the currentTask slot; the slot task, when present, is the
one created by the most recent clear; and every published diagnostic is
tagged with the task of the most recent clear (no cross-generation mixing in
the published set). -/
def Inv (s : MState) : Prop :=
  (∀ i r, s.tasks i = some r → r.kind = TaskKind.slot → r.status ≠ TaskStatus.terminated →
     s.currentTask = some i) ∧
  (∀ t, s.currentTask = some t → s.gen = some t) ∧
  (∀ e ∈ s.published, s.gen = some e.1)

/-- What one event-step guarantees: the invariant is preserved; every
diagnostic published during the step belongs to the generation of the most
recent clear, which the step did not change; when the step changed the
generation it emitted the corresponding clear; and a step that emitted a
clear leaves the published set empty. -/
structure StepSound (s s1 : MState) (obs : List Obs) : Prop where
  inv : Inv s1
  pub : ∀ t d, Obs.publishedDiag t d ∈ obs → s1.gen = some t ∧ s1.gen = s.gen
  clr : s1.gen ≠ s.gen → ∃ t, s1.gen = some t ∧ Obs.clearedFor t ∈ obs
  clrEmpty : ∀ t, Obs.clearedFor t ∈ obs → s1.published = []

/-- A concrete state with one running slot task sitting in the slot. -/
def runningSlotState : MState :=
  { initState with
      tasks := fun i => if i = 0 then
                 some ⟨TaskKind.slot, TaskStatus.running, false, ["build", "--message-format", "json"]⟩
               else none
      nextId := 1
      currentTask := some 0
      gen := some 0 }

/-- runningSlotState with diagnostic publishing switched off. -/
def disabledPublishingState : MState :=
  { runningSlotState with diagnosticPublishingEnabled := false }

/-- Concrete forced-restart trace: run A (build), A starts, forced run B
(check) kills A, and then a JSON line from A still arrives. -/
def claimC1cexEvs : List Ev :=
  [Ev.runCargo ("build") [] false (Except.ok ("/w")),
   Ev.started 0,
   Ev.runCargo ("check") [] true (Except.ok ("/w")),
   Ev.stdoutLine 0 ("\x7bdiag\x7d")]

/-- The observations of claimC1cexEvs. -/
def claimC1cexObs : List Obs :=
  [Obs.clearedFor 0, Obs.busyOn, Obs.spawned 0 ["build", "--message-format", "json"],
   Obs.channelCleared, Obs.channelAppend ("Started cargo build --message-format json\n"),
   Obs.killRequested 0, Obs.parserFed 0 ("\x7bdiag\x7d"), Obs.publishedDiag 0 ("\x7bdiag\x7d")]

/-- A complete forced restart: run A, A starts, forced run B kills A, a tail
line of A arrives, A terminates, the awaited kill resumes and starts B, B
starts and publishes a line of its own. -/
def claimC1Evs : List Ev :=
  [Ev.runCargo ("build") [] false (Except.ok ("/w")),
   Ev.started 0,
   Ev.runCargo ("check") [] true (Except.ok ("/w")),
   Ev.stdoutLine 0 ("\x7bdiag\x7d"),
   Ev.failed 0 none,
   Ev.killCompleted (Except.ok ("/w")),
   Ev.started 1,
   Ev.stdoutLine 1 ("\x7bnew\x7d")]

/-- The observations of claimC1Evs. -/
def claimC1Obs : List Obs :=
  [Obs.clearedFor 0, Obs.busyOn, Obs.spawned 0 ["build", "--message-format", "json"],
   Obs.channelCleared, Obs.channelAppend ("Started cargo build --message-format json\n"),
   Obs.killRequested 0, Obs.parserFed 0 ("\x7bdiag\x7d"), Obs.publishedDiag 0 ("\x7bdiag\x7d"),
   Obs.busyOff,
   Obs.clearedFor 1, Obs.busyOn, Obs.spawned 1 ["check", "--message-format", "json"],
   Obs.channelCleared, Obs.channelAppend ("Started cargo check --message-format json\n"),
   Obs.parserFed 1 ("\x7bnew\x7d"), Obs.publishedDiag 1 ("\x7bnew\x7d")]

/-- The state reached by claimC1Evs. -/
def claimC1State : MState :=
  ((execTrace idParse initState claimC1Evs).getD (initState, [])).1

/-- Concrete trace with a slot task running and the availability probe
started and running at the same time. -/
def claimC5cexEvs : List Ev :=
  [Ev.runCargo ("build") [] false (Except.ok ("/w")),
   Ev.started 0,
   Ev.probeStart,
   Ev.started 1]

/-- Concrete trace leading to a state with one running slot task. -/
def claimC5Evs : List Ev :=
  [Ev.runCargo ("build") [] false (Except.ok ("/w")),
   Ev.started 0]

/-- The observations of claimC5Evs. -/
def claimC5Obs : List Obs :=
  [Obs.clearedFor 0, Obs.busyOn, Obs.spawned 0 ["build", "--message-format", "json"],
   Obs.channelCleared, Obs.channelAppend ("Started cargo build --message-format json\n")]

/-- The state reached by claimC5Evs. -/
def claimC5State : MState :=
  ((execTrace idParse initState claimC5Evs).getD (initState, [])).1

/-- Concrete run of cargo check with one published diagnostic. -/
def claimC4Evs : List Ev :=
  [Ev.runCargo ("check") ["--lib"] false (Except.ok ("/w")),
   Ev.started 0,
   Ev.stdoutLine 0 ("\x7bdiag\x7d")]

/-- The observations of claimC4Evs. -/
def claimC4Obs : List Obs :=
  [Obs.clearedFor 0, Obs.busyOn, Obs.spawned 0 ["check", "--message-format", "json", "--lib"],
   Obs.channelCleared, Obs.channelAppend ("Started cargo check --message-format json --lib\n"),
   Obs.parserFed 0 ("\x7bdiag\x7d"), Obs.publishedDiag 0 ("\x7bdiag\x7d")]

/-- The state reached by claimC4Evs. -/
def claimC4State : MState :=
  ((execTrace idParse initState claimC4Evs).getD (initState, [])).1

theorem initState_inv : Inv initState := by
  refine ⟨?_, ?_, ?_⟩
  · intro i r hi
    exact Option.noConfusion hi
  · intro t ht
    exact Option.noConfusion ht
  · intro e he
    exact absurd he (List.not_mem_nil e)

theorem inv_updateTask (s : MState) (t : Nat) (f : TaskRec → TaskRec)
    (hInv : Inv s)
    (hkind : ∀ q, (f q).kind = q.kind)
    (hstat : ∀ q, s.tasks t = some q →
      (f q).status ≠ TaskStatus.terminated → q.status ≠ TaskStatus.terminated) :
    Inv { s with tasks := updateTask s.tasks t f } := by
  obtain ⟨h1, h2, h3⟩ := hInv
  refine ⟨?_, h2, h3⟩
  intro i r' hi hk hs'
  show s.currentTask = some i
  have hi' : (if i = t then (s.tasks t).map f else s.tasks i) = some r' := hi
  by_cases hit : i = t
  · subst hit
    rw [if_pos rfl] at hi'
    rcases htk : s.tasks i with _ | r
    · rw [htk] at hi'
      exact Option.noConfusion hi'
    · rw [htk] at hi'
      have hr' : r' = f r := (Option.some.inj hi').symm
      subst hr'
      exact h1 i r htk (by rw [← hkind r]; exact hk) (hstat r htk hs')
  · rw [if_neg hit] at hi'
    exact h1 i r' hi' hk hs'

theorem inv_terminateCurrent (s : MState) (t : Nat) (hInv : Inv s)
    (hct : s.currentTask = some t) :
    Inv { s with
            tasks := updateTask s.tasks t (fun q => { q with status := TaskStatus.terminated })
            currentTask := none } := by
  obtain ⟨h1, h2, h3⟩ := hInv
  refine ⟨?_, ?_, ?_⟩
  · intro i r' hi hk hs'
    exfalso
    have hi' : (if i = t then (s.tasks t).map (fun q => { q with status := TaskStatus.terminated })
                else s.tasks i) = some r' := hi
    by_cases hit : i = t
    · subst hit
      rw [if_pos rfl] at hi'
      rcases htk : s.tasks i with _ | r
      · rw [htk] at hi'
        exact Option.noConfusion hi'
      · rw [htk] at hi'
        have hr' : r' = { r with status := TaskStatus.terminated } := (Option.some.inj hi').symm
        rw [hr'] at hs'
        exact hs' rfl
    · rw [if_neg hit] at hi'
      have h := h1 i r' hi' hk hs'
      rw [hct] at h
      exact hit (Option.some.inj h).symm
  · intro t' ht'
    exact Option.noConfusion ht'
  · intro e he
    exact h3 e he

theorem inv_addTask (s : MState) (rec : TaskRec) (hInv : Inv s)
    (hk : rec.kind ≠ TaskKind.slot) :
    Inv { s with
            tasks := fun i => if i = s.nextId then some rec else s.tasks i
            nextId := s.nextId + 1 } := by
  obtain ⟨h1, h2, h3⟩ := hInv
  refine ⟨?_, h2, h3⟩
  intro i r' hi hkk hs'
  show s.currentTask = some i
  have hi' : (if i = s.nextId then some rec else s.tasks i) = some r' := hi
  by_cases hie : i = s.nextId
  · rw [if_pos hie] at hi'
    have hr : r' = rec := (Option.some.inj hi').symm
    rw [hr] at hkk
    exact absurd hkk hk
  · rw [if_neg hie] at hi'
    exact h1 i r' hi' hkk hs'

theorem startSlotRun_inv (s : MState) (command : String) (args : List String)
    (hInv : Inv s) (hct : s.currentTask = none) :
    Inv (startSlotRun s command args).1 := by
  obtain ⟨h1, h2, h3⟩ := hInv
  refine ⟨?_, ?_, ?_⟩
  · intro i r' hi hk hs'
    show some s.nextId = some i
    have hi' : (if i = s.nextId then
                  some (⟨TaskKind.slot, TaskStatus.created, false, buildFinalArgs command args⟩ : TaskRec)
                else s.tasks i) = some r' := hi
    by_cases hie : i = s.nextId
    · rw [hie]
    · rw [if_neg hie] at hi'
      have h := h1 i r' hi' hk hs'
      rw [hct] at h
      exact Option.noConfusion h
  · intro t ht
    have h : s.nextId = t := Option.some.inj ht
    show some s.nextId = some t
    rw [h]
  · intro e he
    exact absurd he (List.not_mem_nil e)

theorem inv_publishAppend (s : MState) (t : Nat) (ds : List String)
    (hInv : Inv s) (hgen : s.gen = some t) :
    Inv { s with published := s.published ++ ds.map (fun d => (t, d)) } := by
  obtain ⟨h1, h2, h3⟩ := hInv
  refine ⟨h1, h2, ?_⟩
  intro e he
  show s.gen = some e.1
  have he' : e ∈ s.published ++ ds.map (fun d => (t, d)) := he
  rw [List.mem_append] at he'
  rcases he' with he' | he'
  · exact h3 e he'
  · rw [List.mem_map] at he'
    obtain ⟨d, -, hde⟩ := he'
    rw [← hde]
    exact hgen

theorem stepSound_frame (s s1 : MState) (obs : List Obs) (hInv1 : Inv s1)
    (hgen : s1.gen = s.gen)
    (hnopub : ∀ t d, Obs.publishedDiag t d ∉ obs)
    (hnoclr : ∀ t, Obs.clearedFor t ∉ obs) :
    StepSound s s1 obs :=
  ⟨hInv1, fun t d hm => absurd hm (hnopub t d), fun hne => absurd hgen hne,
   fun t hm => absurd hm (hnoclr t)⟩

theorem stepSound_start (s s0 : MState) (command : String) (args : List String)
    (hInv0 : Inv s0) (hct : s0.currentTask = none) :
    StepSound s (startSlotRun s0 command args).1 (startSlotRun s0 command args).2 := by
  refine ⟨startSlotRun_inv s0 command args hInv0 hct, ?_, ?_, ?_⟩
  · intro t d hm
    exfalso
    have hm' : Obs.publishedDiag t d ∈
        [Obs.clearedFor s0.nextId, Obs.busyOn,
         Obs.spawned s0.nextId (buildFinalArgs command args)] := hm
    simp at hm'
  · intro _
    refine ⟨s0.nextId, rfl, ?_⟩
    show Obs.clearedFor s0.nextId ∈
        [Obs.clearedFor s0.nextId, Obs.busyOn,
         Obs.spawned s0.nextId (buildFinalArgs command args)]
    simp
  · intro t hm
    rfl

theorem stepSound_publish (s : MState) (t : Nat) (line : String) (ds : List String)
    (hInv : Inv s) (hgen : s.gen = some t) :
    StepSound s { s with published := s.published ++ ds.map (fun d => (t, d)) }
      (Obs.parserFed t line :: ds.map (fun d => Obs.publishedDiag t d)) := by
  refine ⟨inv_publishAppend s t ds hInv hgen, ?_, ?_, ?_⟩
  · intro t' d hm
    have hm' : Obs.publishedDiag t' d ∈
        Obs.parserFed t line :: ds.map (fun d => Obs.publishedDiag t d) := hm
    rw [List.mem_cons] at hm'
    rcases hm' with hm' | hm'
    · exact Obs.noConfusion hm'
    · rw [List.mem_map] at hm'
      obtain ⟨d', -, hd⟩ := hm'
      have ht' : t = t' := by
        injection hd with h1 h2
      constructor
      · show s.gen = some t'
        rw [← ht']
        exact hgen
      · rfl
  · intro hne
    exact absurd rfl hne
  · intro t' hm
    exfalso
    have hm' : Obs.clearedFor t' ∈
        Obs.parserFed t line :: ds.map (fun d => Obs.publishedDiag t d) := hm
    rw [List.mem_cons] at hm'
    rcases hm' with hm' | hm'
    · exact Obs.noConfusion hm'
    · rw [List.mem_map] at hm'
      obtain ⟨d', -, hd⟩ := hm'
      exact Obs.noConfusion hd



theorem step_sound (parse : String → List String) (s : MState) (e : Ev) (s1 : MState)
    (obs : List Obs) (hInv : Inv s) (hstep : step parse s e = some (s1, obs)) :
    StepSound s s1 obs := by
  cases e with
  | runCargo command args force cwdRes =>
    simp only [step] at hstep
    rw [stepRunCargo.eq_def] at hstep
    split at hstep
    · -- slot occupied
      rename_i t hct
      split at hstep
      · -- force
        split at hstep
        · -- no pending forced restart
          split at hstep
          · rename_i r htk
            split at hstep
            · exact Option.noConfusion hstep
            · rename_i hterm
              simp only [Option.some.injEq, Prod.mk.injEq] at hstep
              obtain ⟨rfl, rfl⟩ := hstep
              refine stepSound_frame _ _ _ ?_ rfl (by intro a b hm; simp at hm)
                (by intro a hm; simp at hm)
              exact inv_updateTask s t (fun q => { q with killRequested := true }) hInv
                (fun q => rfl) (fun q _ h => h)
          · exact Option.noConfusion hstep
        · exact Option.noConfusion hstep
      · -- no force: plain no-op
        simp only [Option.some.injEq, Prod.mk.injEq] at hstep
        obtain ⟨rfl, rfl⟩ := hstep
        exact stepSound_frame _ _ _ hInv rfl (by intro a b hm; simp at hm)
          (by intro a hm; simp at hm)
    · -- slot empty
      rename_i hct
      split at hstep
      · -- no pending forced restart
        split at hstep
        · -- cwd resolution failed
          rename_i m
          simp only [Option.some.injEq, Prod.mk.injEq] at hstep
          obtain ⟨rfl, rfl⟩ := hstep
          exact stepSound_frame _ _ _ hInv rfl (by intro a b hm; simp at hm)
            (by intro a hm; simp at hm)
        · -- cwd ok: start the run
          simp only [Option.some.injEq] at hstep
          have h1 : (startSlotRun s command args).1 = s1 := by rw [hstep]
          have h2 : (startSlotRun s command args).2 = obs := by rw [hstep]
          rw [← h1, ← h2]
          exact stepSound_start s s command args hInv hct
      · exact Option.noConfusion hstep
  | killCompleted cwdRes =>
    simp only [step] at hstep
    rw [stepKillCompleted.eq_def] at hstep
    split at hstep
    · rename_i command args tk hpf
      split at hstep
      · rename_i r htk
        split at hstep
        · rename_i hterm
          split at hstep
          · rename_i hct
            split at hstep
            · rename_i m
              simp only [Option.some.injEq, Prod.mk.injEq] at hstep
              obtain ⟨rfl, rfl⟩ := hstep
              exact stepSound_frame _ _ _ hInv rfl (by intro a b hm; simp at hm)
                (by intro a hm; simp at hm)
            · simp only [Option.some.injEq] at hstep
              have h1 : (startSlotRun { s with pendingForce := none } command args).1 = s1 := by
                rw [hstep]
              have h2 : (startSlotRun { s with pendingForce := none } command args).2 = obs := by
                rw [hstep]
              rw [← h1, ← h2]
              exact stepSound_start s { s with pendingForce := none } command args hInv hct
          · exact Option.noConfusion hstep
        · exact Option.noConfusion hstep
      · exact Option.noConfusion hstep
    · exact Option.noConfusion hstep
  | started t =>
    simp only [step] at hstep
    rw [stepStarted.eq_def] at hstep
    split at hstep
    · rename_i r htk
      split at hstep
      · rename_i hst
        simp only [Option.some.injEq, Prod.mk.injEq] at hstep
        obtain ⟨rfl, rfl⟩ := hstep
        refine stepSound_frame _ _ _ ?_ rfl ?_ ?_
        · refine inv_updateTask s t _ hInv (fun q => rfl) ?_
          intro q hq _
          have hqr : q = r := by
            rw [htk] at hq
            exact (Option.some.inj hq).symm
          rw [hqr, hst]
          intro hc
          exact TaskStatus.noConfusion hc
        · intro a b hm
          by_cases hk : r.kind = TaskKind.slot <;> simp [hk] at hm
        · intro a hm
          by_cases hk : r.kind = TaskKind.slot <;> simp [hk] at hm
      · exact Option.noConfusion hstep
    · exact Option.noConfusion hstep
  | stdoutLine t line =>
    simp only [step] at hstep
    rw [stepStdoutLine.eq_def] at hstep
    split at hstep
    · rename_i r htk
      split at hstep
      · rename_i hst
        split at hstep
        · -- slot task
          rename_i hkind
          split at hstep
          · -- JSON line
            split at hstep
            · -- publishing enabled
              rename_i hsw hen
              simp only [Option.some.injEq, Prod.mk.injEq] at hstep
              obtain ⟨rfl, rfl⟩ := hstep
              have hgen : s.gen = some t :=
                hInv.2.1 t (hInv.1 t r htk hkind
                  (by rw [hst]; intro hc; exact TaskStatus.noConfusion hc))
              exact stepSound_publish s t line (parse line) hInv hgen
            · simp only [Option.some.injEq, Prod.mk.injEq] at hstep
              obtain ⟨rfl, rfl⟩ := hstep
              exact stepSound_frame _ _ _ hInv rfl (by intro a b hm; simp at hm)
                (by intro a hm; simp at hm)
          · simp only [Option.some.injEq, Prod.mk.injEq] at hstep
            obtain ⟨rfl, rfl⟩ := hstep
            exact stepSound_frame _ _ _ hInv rfl (by intro a b hm; simp at hm)
              (by intro a hm; simp at hm)
        · -- probe task
          simp only [Option.some.injEq, Prod.mk.injEq] at hstep
          obtain ⟨rfl, rfl⟩ := hstep
          exact stepSound_frame _ _ _ hInv rfl (by intro a b hm; simp at hm)
            (by intro a hm; simp at hm)
        · -- scaffold task
          simp only [Option.some.injEq, Prod.mk.injEq] at hstep
          obtain ⟨rfl, rfl⟩ := hstep
          exact stepSound_frame _ _ _ hInv rfl (by intro a b hm; simp at hm)
            (by intro a hm; simp at hm)
      · exact Option.noConfusion hstep
    · exact Option.noConfusion hstep
  | stderrLine t line =>
    simp only [step] at hstep
    rw [stepStderrLine.eq_def] at hstep
    split at hstep
    · rename_i r htk
      split at hstep
      · rename_i hst
        split at hstep <;>
          · simp only [Option.some.injEq, Prod.mk.injEq] at hstep
            obtain ⟨rfl, rfl⟩ := hstep
            exact stepSound_frame _ _ _ hInv rfl (by intro a b hm; simp at hm)
              (by intro a hm; simp at hm)
      · exact Option.noConfusion hstep
    · exact Option.noConfusion hstep
  | exited t code =>
    simp only [step] at hstep
    rw [stepExited.eq_def] at hstep
    split at hstep
    · rename_i r htk
      split at hstep
      · split at hstep
        · split at hstep
          · rename_i hk hst hct
            simp only [Option.some.injEq, Prod.mk.injEq] at hstep
            obtain ⟨rfl, rfl⟩ := hstep
            refine stepSound_frame _ _ _ ?_ rfl (by intro a b hm; simp at hm)
              (by intro a hm; simp at hm)
            exact inv_terminateCurrent s t hInv hct
          · exact Option.noConfusion hstep
        · exact Option.noConfusion hstep
      · exact Option.noConfusion hstep
    · exact Option.noConfusion hstep
  | failed t err =>
    simp only [step] at hstep
    rw [stepFailed.eq_def] at hstep
    split at hstep
    · rename_i r htk
      split at hstep
      · split at hstep
        · exact Option.noConfusion hstep
        · split at hstep
          · rename_i hk hterm hct
            simp only [Option.some.injEq, Prod.mk.injEq] at hstep
            obtain ⟨rfl, rfl⟩ := hstep
            refine stepSound_frame _ _ _ ?_ rfl ?_ ?_
            · exact inv_terminateCurrent s t hInv hct
            · intro a b hm
              by_cases he : err = some ("ENOENT") <;> simp [he] at hm
            · intro a hm
              by_cases he : err = some ("ENOENT") <;> simp [he] at hm
          · exact Option.noConfusion hstep
      · exact Option.noConfusion hstep
    · exact Option.noConfusion hstep
  | probeStart =>
    simp only [step] at hstep
    rw [stepProbeStart.eq_def] at hstep
    simp only [Option.some.injEq, Prod.mk.injEq] at hstep
    obtain ⟨rfl, rfl⟩ := hstep
    refine stepSound_frame _ _ _ ?_ rfl (by intro a b hm; simp at hm)
      (by intro a hm; simp at hm)
    exact inv_addTask s _ hInv (by intro hc; exact TaskKind.noConfusion hc)
  | probeEnd t code =>
    simp only [step] at hstep
    rw [stepProbeEnd.eq_def] at hstep
    split at hstep
    · rename_i r htk
      split at hstep
      · split at hstep
        · simp only [Option.some.injEq, Prod.mk.injEq] at hstep
          obtain ⟨rfl, rfl⟩ := hstep
          refine stepSound_frame _ _ _ ?_ rfl (by intro a b hm; simp at hm)
            (by intro a hm; simp at hm)
          refine inv_updateTask s t _ hInv (fun q => rfl) ?_
          intro q _ hterm
          exact absurd rfl hterm
        · exact Option.noConfusion hstep
      · exact Option.noConfusion hstep
    · exact Option.noConfusion hstep
  | scaffoldStart args =>
    simp only [step] at hstep
    rw [stepScaffoldStart.eq_def] at hstep
    simp only [Option.some.injEq, Prod.mk.injEq] at hstep
    obtain ⟨rfl, rfl⟩ := hstep
    refine stepSound_frame _ _ _ ?_ rfl (by intro a b hm; simp at hm)
      (by intro a hm; simp at hm)
    exact inv_addTask s _ hInv (by intro hc; exact TaskKind.noConfusion hc)
  | scaffoldEnd t =>
    simp only [step] at hstep
    rw [stepScaffoldEnd.eq_def] at hstep
    split at hstep
    · rename_i r htk
      split at hstep
      · split at hstep
        · simp only [Option.some.injEq, Prod.mk.injEq] at hstep
          obtain ⟨rfl, rfl⟩ := hstep
          refine stepSound_frame _ _ _ ?_ rfl (by intro a b hm; simp at hm)
            (by intro a hm; simp at hm)
          refine inv_updateTask s t _ hInv (fun q => rfl) ?_
          intro q _ hterm
          exact absurd rfl hterm
        · exact Option.noConfusion hstep
      · exact Option.noConfusion hstep
    · exact Option.noConfusion hstep
  | setDiagnosticPublishingEnabled b =>
    simp only [step] at hstep
    rw [stepSetPublishing.eq_def] at hstep
    simp only [Option.some.injEq, Prod.mk.injEq] at hstep
    obtain ⟨rfl, rfl⟩ := hstep
    exact stepSound_frame _ _ _ hInv rfl (by intro a b hm; simp at hm)
      (by intro a hm; simp at hm)
  | stopTask =>
    simp only [step] at hstep
    rw [stepStopTask.eq_def] at hstep
    split at hstep
    · rename_i t hct
      simp only [Option.some.injEq, Prod.mk.injEq] at hstep
      obtain ⟨rfl, rfl⟩ := hstep
      refine stepSound_frame _ _ _ ?_ rfl (by intro a b hm; simp at hm)
        (by intro a hm; simp at hm)
      exact inv_updateTask s t (fun q => { q with killRequested := true }) hInv
        (fun q => rfl) (fun q _ h => h)
    · simp only [Option.some.injEq, Prod.mk.injEq] at hstep
      obtain ⟨rfl, rfl⟩ := hstep
      exact stepSound_frame _ _ _ hInv rfl (by intro a b hm; simp at hm)
        (by intro a hm; simp at hm)


theorem execTrace_inv (parse : String → List String) :
    ∀ (evs : List Ev) (s sf : MState) (obs : List Obs),
      Inv s → execTrace parse s evs = some (sf, obs) → Inv sf := by
  intro evs
  induction evs with
  | nil =>
    intro s sf obs hInv h
    simp only [execTrace, Option.some.injEq, Prod.mk.injEq] at h
    obtain ⟨rfl, rfl⟩ := h
    exact hInv
  | cons e es ih =>
    intro s sf obs hInv h
    simp only [execTrace] at h
    rcases hstep : step parse s e with _ | ⟨s1, o1⟩ <;> rw [hstep] at h
    · exact Option.noConfusion h
    · have h1 : (match execTrace parse s1 es with
                 | some (s2, o2) => some (s2, o1 ++ o2)
                 | none => none) = some (sf, obs) := h
      rcases hrec : execTrace parse s1 es with _ | ⟨s2, o2⟩ <;> rw [hrec] at h1
      · exact Option.noConfusion h1
      · have h2 : some (s2, o1 ++ o2) = some (sf, obs) := h1
        simp only [Option.some.injEq, Prod.mk.injEq] at h2
        obtain ⟨rfl, rfl⟩ := h2
        exact ih s1 s2 o2 (step_sound parse s e s1 o1 hInv hstep).inv hrec

theorem reachable_inv (parse : String → List String) (s : MState)
    (h : Reachable parse s) : Inv s := by
  obtain ⟨evs, obs, hexec⟩ := h
  exact execTrace_inv parse evs initState s obs initState_inv hexec

theorem split_middle {α : Type} (o1 : List α) :
    ∀ (o2 l1 l2 : List α) (x : α), o1 ++ o2 = l1 ++ x :: l2 →
      (∃ m, o1 = l1 ++ x :: m) ∨ (∃ m k, o2 = m ++ x :: k ∧ l1 = o1 ++ m) := by
  induction o1 with
  | nil =>
    intro o2 l1 l2 x h
    right
    exact ⟨l1, l2, by simpa using h, by simp⟩
  | cons y o1t ih =>
    intro o2 l1 l2 x h
    cases l1 with
    | nil =>
      simp only [List.cons_append, List.nil_append, List.cons.injEq] at h
      left
      exact ⟨o1t, by simp [h.1]⟩
    | cons z l1t =>
      simp only [List.cons_append, List.cons.injEq] at h
      rcases ih o2 l1t l2 x h.2 with ⟨m, hm⟩ | ⟨m, k, hmk, hl⟩
      · left
        exact ⟨m, by simp [h.1, hm]⟩
      · right
        exact ⟨m, k, hmk, by simp [h.1, hl]⟩

theorem execTrace_clear_precedes (parse : String → List String) :
    ∀ (evs : List Ev) (s sf : MState) (obs : List Obs),
      Inv s → execTrace parse s evs = some (sf, obs) →
      ∀ (l1 : List Obs) (t : Nat) (d : String) (l2 : List Obs),
        obs = l1 ++ Obs.publishedDiag t d :: l2 →
        Obs.clearedFor t ∈ l1 ∨ s.gen = some t := by
  intro evs
  induction evs with
  | nil =>
    intro s sf obs hInv h l1 t d l2 hsplit
    simp only [execTrace, Option.some.injEq, Prod.mk.injEq] at h
    obtain ⟨rfl, rfl⟩ := h
    cases l1 <;> simp at hsplit
  | cons e es ih =>
    intro s sf obs hInv h l1 t d l2 hsplit
    simp only [execTrace] at h
    rcases hstep : step parse s e with _ | ⟨s1, o1⟩ <;> rw [hstep] at h
    · exact Option.noConfusion h
    · have h1 : (match execTrace parse s1 es with
                 | some (s2, o2) => some (s2, o1 ++ o2)
                 | none => none) = some (sf, obs) := h
      rcases hrec : execTrace parse s1 es with _ | ⟨s2, o2⟩ <;> rw [hrec] at h1
      · exact Option.noConfusion h1
      · have h2 : some (s2, o1 ++ o2) = some (sf, obs) := h1
        simp only [Option.some.injEq, Prod.mk.injEq] at h2
        obtain ⟨rfl, rfl⟩ := h2
        have hsound := step_sound parse s e s1 o1 hInv hstep
        rcases split_middle o1 o2 l1 l2 (Obs.publishedDiag t d) hsplit with
          ⟨m, hm⟩ | ⟨m, k, hmk, hl⟩
        · right
          have hpub : Obs.publishedDiag t d ∈ o1 := by
            rw [hm]
            simp
          have hg := hsound.pub t d hpub
          rw [← hg.2]
          exact hg.1
        · rcases ih s1 s2 o2 hsound.inv hrec m t d k hmk with hc | hg
          · left
            rw [hl]
            rw [List.mem_append]
            right
            exact hc
          · by_cases hgeq : s1.gen = s.gen
            · right
              rw [← hgeq]
              exact hg
            · obtain ⟨tc, hgc, hcm⟩ := hsound.clr hgeq
              have htc : tc = t := by
                rw [hg] at hgc
                exact (Option.some.inj hgc).symm
              left
              rw [hl]
              rw [List.mem_append]
              left
              rw [← htc]
              exact hcm


/-- C2: a runCargo call with force = false while the currentTask slot is
occupied is a no-op: the state is unchanged (so no second process is spawned
and the slot still references the same single task) and nothing is observed
(cargo_manager.ts lines 323-325). -/
theorem claim_C2 (parse : String → List String) (s : MState) (t : Nat) (command : String)
    (args : List String) (cwdRes : Except String String) (h : s.currentTask = some t) :
    step parse s (Ev.runCargo command args false cwdRes) = some (s, []) := by
  simp only [step]
  rw [stepRunCargo.eq_def, h]
  simp

theorem claim_C2_witness :
    runningSlotState.currentTask = some 0 ∧
    step idParse runningSlotState (Ev.runCargo ("build") [] false (Except.ok ("/w"))) =
      some (runningSlotState, []) :=
  ⟨rfl, claim_C2 idParse runningSlotState 0 ("build") [] (Except.ok ("/w")) rfl⟩

/-- C7: when working-directory resolution fails while the slot is empty,
runCargo only reports the error: the state is completely unchanged (slot
still empty, no task created, published set untouched) and the only
observation is the error message (cargo_manager.ts lines 327-335). -/
theorem claim_C7 (parse : String → List String) (s : MState) (command : String)
    (args : List String) (force : Bool) (m : String)
    (h1 : s.currentTask = none) (h2 : s.pendingForce = none) :
    step parse s (Ev.runCargo command args force (Except.error m)) =
      some (s, [Obs.errorMessage m]) := by
  simp only [step]
  rw [stepRunCargo.eq_def, h1, h2]
  simp

theorem claim_C7_witness :
    initState.currentTask = none ∧ initState.pendingForce = none ∧
    step idParse initState (Ev.runCargo ("build") [] false (Except.error ("no workspace"))) =
      some (initState, [Obs.errorMessage ("no workspace")]) :=
  ⟨rfl, rfl, claim_C7 idParse initState ("build") [] false ("no workspace") rfl rfl⟩

/-- C8: when a slot task fails, the slot is emptied and the busy indicator
hidden in every case; the tool-not-installed message is shown if and only if
the failure carries an error whose message is exactly "ENOENT"; an
interruption (no error) or any other error produces no message
(cargo_manager.ts lines 403-418). -/
theorem claim_C8 (parse : String → List String) (s : MState) (t : Nat) (r : TaskRec)
    (err : Option String) (h1 : s.tasks t = some r) (h2 : r.kind = TaskKind.slot)
    (h3 : r.status ≠ TaskStatus.terminated) (h4 : s.currentTask = some t) :
    step parse s (Ev.failed t err) =
      some ({ s with
                tasks := updateTask s.tasks t (fun q => { q with status := TaskStatus.terminated })
                currentTask := none },
            Obs.busyOff ::
              (if err = some ("ENOENT") then [Obs.infoMessage cargoNotAvailableMsg] else [])) ∧
    (∀ m, Obs.infoMessage m ∈
        (Obs.busyOff ::
          (if err = some ("ENOENT") then [Obs.infoMessage cargoNotAvailableMsg] else [])) ↔
      (err = some ("ENOENT") ∧ m = cargoNotAvailableMsg)) := by
  constructor
  · simp only [step]
    rw [stepFailed.eq_def, h1]
    simp [h2, h3, h4]
  · intro m
    by_cases he : err = some ("ENOENT") <;> simp [he]

theorem claim_C8_witness :
    step idParse runningSlotState (Ev.failed 0 (some ("ENOENT"))) =
      some ({ runningSlotState with
                tasks := updateTask runningSlotState.tasks 0
                  (fun q => { q with status := TaskStatus.terminated })
                currentTask := none },
            [Obs.busyOff, Obs.infoMessage cargoNotAvailableMsg]) := by
  have h := claim_C8 idParse runningSlotState 0
    ⟨TaskKind.slot, TaskStatus.running, false, ["build", "--message-format", "json"]⟩
    (some ("ENOENT")) rfl rfl (by intro hc; exact TaskStatus.noConfusion hc) rfl
  simpa using h.1

/-- C10: with diagnostic publishing disabled, a stdout line of a running slot
task that begins with the JSON object delimiter is still fed to the parser
but neither published nor appended to the output channel (the state,
including the published set, is unchanged); a stdout line not beginning with
the delimiter, and every stderr line, is appended to the output channel
regardless of the toggle (cargo_manager.ts lines 372-388, 177-179). -/
theorem claim_C10 (parse : String → List String) (s : MState) (t : Nat) (r : TaskRec)
    (line : String) (h1 : s.tasks t = some r) (h2 : r.status = TaskStatus.running)
    (h3 : r.kind = TaskKind.slot) :
    (s.diagnosticPublishingEnabled = false → startsWithJsonBrace line = true →
       step parse s (Ev.stdoutLine t line) = some (s, [Obs.parserFed t line])) ∧
    (startsWithJsonBrace line = false →
       step parse s (Ev.stdoutLine t line) = some (s, [Obs.channelAppend (line ++ "\n")])) ∧
    step parse s (Ev.stderrLine t line) = some (s, [Obs.channelAppend (line ++ "\n")]) := by
  refine ⟨?_, ?_, ?_⟩
  · intro hen hsw
    simp only [step]
    rw [stepStdoutLine.eq_def, h1]
    simp [h2, h3, hsw, hen]
  · intro hsw
    simp only [step]
    rw [stepStdoutLine.eq_def, h1]
    simp [h2, h3, hsw]
  · simp only [step]
    rw [stepStderrLine.eq_def, h1]
    simp [h2, h3]

theorem claim_C10_witness :
    step idParse disabledPublishingState (Ev.stdoutLine 0 ("\x7bd\x7d")) =
      some (disabledPublishingState, [Obs.parserFed 0 ("\x7bd\x7d")]) ∧
    step idParse disabledPublishingState (Ev.stderrLine 0 ("\x7bd\x7d")) =
      some (disabledPublishingState, [Obs.channelAppend (("\x7bd\x7d") ++ "\n")]) :=
  ⟨(claim_C10 idParse disabledPublishingState 0
      ⟨TaskKind.slot, TaskStatus.running, false, ["build", "--message-format", "json"]⟩
      ("\x7bd\x7d") rfl rfl rfl).1 rfl (by decide),
   (claim_C10 idParse disabledPublishingState 0
      ⟨TaskKind.slot, TaskStatus.running, false, ["build", "--message-format", "json"]⟩
      ("\x7bd\x7d") rfl rfl rfl).2.2⟩

/-- C9: the probe exit code decides the check invocation form (exit 0 keeps
verb check with the caller args unchanged, any other exit code selects verb
rustc with "--" "-Zno-trans" appended), the probe task is spawned with
arguments check --help, and neither probe event reads or writes the shared
currentTask slot or the published set (cargo_manager.ts lines 228-242,
308-314). -/
theorem claim_C9 :
    (∀ args : List String, invokeCargoCheckCommandAndArgs 0 args = (("check"), args)) ∧
    (∀ (code : Int) (args : List String), code ≠ 0 →
       invokeCargoCheckCommandAndArgs code args = (("rustc"), args ++ ["--", "-Zno-trans"])) ∧
    (∀ (parse : String → List String) (s s1 : MState) (obs : List Obs),
       step parse s Ev.probeStart = some (s1, obs) →
       s1.currentTask = s.currentTask ∧ s1.published = s.published ∧
         obs = [Obs.spawned s.nextId ["check", "--help"]]) ∧
    (∀ (parse : String → List String) (s : MState) (t : Nat) (code : Int) (s1 : MState)
       (obs : List Obs),
       step parse s (Ev.probeEnd t code) = some (s1, obs) →
       s1.currentTask = s.currentTask ∧ s1.published = s.published) := by
  refine ⟨?_, ?_, ?_, ?_⟩
  · intro args
    simp [invokeCargoCheckCommandAndArgs]
  · intro code args hc
    simp [invokeCargoCheckCommandAndArgs, hc]
  · intro parse s s1 obs h
    simp only [step] at h
    rw [stepProbeStart.eq_def] at h
    simp only [Option.some.injEq, Prod.mk.injEq] at h
    obtain ⟨rfl, rfl⟩ := h
    exact ⟨rfl, rfl, rfl⟩
  · intro parse s t code s1 obs h
    simp only [step] at h
    rw [stepProbeEnd.eq_def] at h
    split at h
    · split at h
      · split at h
        · simp only [Option.some.injEq, Prod.mk.injEq] at h
          obtain ⟨rfl, rfl⟩ := h
          exact ⟨rfl, rfl⟩
        · exact Option.noConfusion h
      · exact Option.noConfusion h
    · exact Option.noConfusion h

theorem claim_C9_witness :
    invokeCargoCheckCommandAndArgs 1 ["--lib"] = (("rustc"), ["--lib"] ++ ["--", "-Zno-trans"]) :=
  claim_C9.2.1 1 ["--lib"] (by decide)

/-- C6: the JSON output flags are injected exactly for the verbs build,
check, clippy, test, run (prepended to the caller args, after the verb); for
every other verb the argument vector is the verb followed by the caller args
unchanged, with no flags (cargo_manager.ts lines 347-359). -/
theorem claim_C6 (command : String) (args : List String) :
    (command ∈ jsonOutputVerbs →
       buildFinalArgs command args = command :: "--message-format" :: "json" :: args) ∧
    (command ∉ jsonOutputVerbs → buildFinalArgs command args = command :: args) := by
  constructor
  · intro h
    simp [buildFinalArgs, h]
  · intro h
    simp [buildFinalArgs, h]

theorem claim_C6_witness :
    buildFinalArgs ("build") [] = ["build", "--message-format", "json"] ∧
    buildFinalArgs ("doc") ["x"] = ["doc", "x"] :=
  ⟨(claim_C6 ("build") []).1 (by decide), (claim_C6 ("doc") ["x"]).2 (by decide)⟩

/-- C3 counterexample: invoking verb check with caller args --lib produces
the vector check --message-format json --lib (verb first), not the vector
--message-format json check --lib claimed by the spec: the code prepends the
flags to the caller args and then prepends the verb in front of everything
(cargo_manager.ts lines 347-359). -/
theorem claim_C3_counterexample :
    buildFinalArgs ("check") ["--lib"] = ["check", "--message-format", "json", "--lib"] ∧
    (["check", "--message-format", "json", "--lib"] : List String) ≠
      ["--message-format", "json", "check", "--lib"] := by
  constructor
  · decide
  · decide

/-- C3 amended: invoking verb check with caller args --lib when structured
output is supported spawns the process with argument vector
check --message-format json --lib: the command verb comes first, then the
JSON output flags, then the user args. -/
theorem claim_C3_amended :
    execObs idParse [Ev.runCargo ("check") ["--lib"] false (Except.ok ("/w"))] =
      some [Obs.clearedFor 0, Obs.busyOn,
            Obs.spawned 0 ["check", "--message-format", "json", "--lib"]] := by
  decide


/-- C1 counterexample: in the concrete forced restart claimC1cexEvs, the
line of task A arriving after A's kill was requested is still fed to the
parser (and even published): the observation sequence contains parserFed for
A's line strictly after killRequested for A.  The orchestrator has no
generation check, refuting the part of the claim stating that no output line
arriving from A after its kill was requested is fed to the parser
(cargo_manager.ts lines 372-384 parse unconditionally). -/
theorem claim_C1_counterexample :
    execObs idParse claimC1cexEvs = some claimC1cexObs ∧
    (claimC1cexObs.dropWhile (fun o => !(o == Obs.killRequested 0))).contains
        (Obs.parserFed 0 ("\x7bdiag\x7d")) = true := by
  constructor
  · decide
  · decide

/-- C1 amended: in a forced restart the orchestrator kills A, awaits its
termination, then re-issues the run for B; lines from A arriving after the
kill request are still fed to the parser and may be published (there is no
generation check), but since A's termination is awaited before B starts and
B's clear precedes all of B's diagnostics, every diagnostic in PublishedSet
always belongs to the run of the most recent clear: no diagnostic of A is in
PublishedSet after B's clear, so the published set never mixes two task
generations. -/
theorem claim_C1_amended (parse : String → List String) (s : MState) (h : Reachable parse s) :
    ∀ e ∈ s.published, s.gen = some e.1 :=
  (reachable_inv parse s h).2.2

theorem claim_C1_amended_witness :
    Reachable idParse claimC1State ∧
    claimC1State.published = [(1, ("\x7bnew\x7d"))] ∧
    claimC1State.gen = some 1 ∧
    (∀ e ∈ claimC1State.published, claimC1State.gen = some e.1) :=
  ⟨⟨claimC1Evs, claimC1Obs, rfl⟩, rfl, rfl,
   claim_C1_amended idParse claimC1State ⟨claimC1Evs, claimC1Obs, rfl⟩⟩

/-- C4: in every valid trace from the initial state, every published
diagnostic of a run is preceded in the observation sequence by that very
run's clear (clearDiagnostics is called at the start of runCargoWithCwd,
before the task is even created, cargo_manager.ts line 341); moreover any
step that performs a clear leaves the published set empty. -/
theorem claim_C4 (parse : String → List String) (evs : List Ev) (sf : MState) (obs : List Obs)
    (h : execTrace parse initState evs = some (sf, obs)) :
    (∀ (l1 : List Obs) (t : Nat) (d : String) (l2 : List Obs),
       obs = l1 ++ Obs.publishedDiag t d :: l2 → Obs.clearedFor t ∈ l1) ∧
    (∀ (s1 : MState) (e : Ev) (s2 : MState) (o : List Obs),
       Inv s1 → step parse s1 e = some (s2, o) →
       ∀ t, Obs.clearedFor t ∈ o → s2.published = []) := by
  constructor
  · intro l1 t d l2 hsplit
    rcases execTrace_clear_precedes parse evs initState sf obs initState_inv h l1 t d l2
        hsplit with hc | hg
    · exact hc
    · exact absurd hg (by intro hc; exact Option.noConfusion hc)
  · intro s1 e s2 o hInv1 hstep t hm
    exact (step_sound parse s1 e s2 o hInv1 hstep).clrEmpty t hm

theorem claim_C4_witness :
    Obs.clearedFor 0 ∈
      [Obs.clearedFor 0, Obs.busyOn,
       Obs.spawned 0 ["check", "--message-format", "json", "--lib"],
       Obs.channelCleared,
       Obs.channelAppend ("Started cargo check --message-format json --lib\n"),
       Obs.parserFed 0 ("\x7bdiag\x7d")] :=
  (claim_C4 idParse claimC4Evs claimC4State claimC4Obs rfl).1
    [Obs.clearedFor 0, Obs.busyOn,
     Obs.spawned 0 ["check", "--message-format", "json", "--lib"],
     Obs.channelCleared,
     Obs.channelAppend ("Started cargo check --message-format json --lib\n"),
     Obs.parserFed 0 ("\x7bdiag\x7d")]
    0 ("\x7bdiag\x7d") [] (by decide)

/-- C5 counterexample: after the concrete trace claimC5cexEvs the slot task
(id 0) and the availability probe task (id 1) are both in the Running state
at the same time: checkCargoCheckAvailability (cargo_manager.ts lines
308-314) runs its task outside the currentTask slot without consulting it,
refuting the claim that at most one Task over all kinds is Running at any
time. -/
theorem claim_C5_counterexample :
    (execTrace idParse initState claimC5cexEvs).map
        (fun p => ((p.1.tasks 0).map (fun r => (r.kind, r.status)),
                   (p.1.tasks 1).map (fun r => (r.kind, r.status)))) =
      some (some (TaskKind.slot, TaskStatus.running),
            some (TaskKind.probe, TaskStatus.running)) := by
  decide

/-- C5 amended: at most one slot task (a task created by
runCargo/runCargoWithCwd, the ones subject to the currentTask discipline) is
Running at any time, in every reachable state; the availability probe and
the init/new scaffolding tasks are not subject to the invariant and may run
concurrently with the slot task. -/
theorem claim_C5_amended (parse : String → List String) (s : MState) (h : Reachable parse s) :
    ∀ (i j : Nat) (ri rj : TaskRec), s.tasks i = some ri → s.tasks j = some rj →
      ri.kind = TaskKind.slot → rj.kind = TaskKind.slot →
      ri.status = TaskStatus.running → rj.status = TaskStatus.running → i = j := by
  intro i j ri rj hi hj hki hkj hsi hsj
  have hInv := reachable_inv parse s h
  have h1 := hInv.1 i ri hi hki (by rw [hsi]; intro hc; exact TaskStatus.noConfusion hc)
  have h2 := hInv.1 j rj hj hkj (by rw [hsj]; intro hc; exact TaskStatus.noConfusion hc)
  rw [h1] at h2
  exact Option.some.inj h2

theorem claim_C5_amended_witness :
    Reachable idParse claimC5State ∧ (0 : Nat) = 0 :=
  ⟨⟨claimC5Evs, claimC5Obs, rfl⟩,
   claim_C5_amended idParse claimC5State ⟨claimC5Evs, claimC5Obs, rfl⟩ 0 0
     ⟨TaskKind.slot, TaskStatus.running, false, ["build", "--message-format", "json"]⟩
     ⟨TaskKind.slot, TaskStatus.running, false, ["build", "--message-format", "json"]⟩
     rfl rfl rfl rfl rfl rfl⟩

end CargoManager
